import Mathlib

/-!
# Verification of the multilingual OCR text pipeline

Shallow embedding of the core text pipeline of the repository
`ocr-on-pharma-compliance`:

* `backend/services/translation_service.py`
  (`TranslationService._recursive_split`, `_smart_chunk_text`,
  `_translate_chunk`, `translate_to_english`, `translate_pages`);
* `backend/services/language_detection_service.py`
  (`LanguageDetectionService.detect_language`,
  `detect_language_from_pages`);
* `backend/services/multilingual_ocr_service.py`
  (`MultilingualOCRService.process_image_multilingual`).

Python strings are modelled as `String` / `List Char`; the process-wide
translation cache as an explicit association list threaded through the
functions; the remote MyMemory HTTP endpoint and the `langdetect` library
as oracle parameters.  The cache key, the MD5 digest of the text and the
lowercased language code, is modelled as the pair of the two (the digest
is assumed collision-free).
-/

set_option maxRecDepth 20000

namespace PharmaOCR

/-- The set of characters stripped by Python's `str.strip()` /
split by `str.split()` for the ASCII range (`string.whitespace`). -/
def pyIsSpace (c : Char) : Bool :=
  c = ' ' || c = '\t' || c = '\n' || c = '\r' || c = '\x0b' || c = '\x0c'

/-- `not text or text.strip() == ''`: the text is empty or whitespace-only. -/
def isBlankL (l : List Char) : Bool :=
  l.all pyIsSpace

/-- Characters that may come from one of the chunker's separator strings
(`"\n\n"`, `"\n"`, `". "`, `"! "`, `"? "`, `" "`): whitespace plus the
sentence-ending punctuation marks. -/
def sepChar (c : Char) : Bool :=
  pyIsSpace c || c = '.' || c = '!' || c = '?'

/-- Erase whitespace and potential separator characters; the remaining
sequence is the "content" a chunking pass must preserve. -/
def normContent (l : List Char) : List Char :=
  l.filter (fun c => !(sepChar c))

/-- Python `text.split(separator)` for a non-empty separator, on char lists.
`acc` holds the current fragment reversed; `skip` counts characters of a
just-matched separator occurrence that remain to be consumed. -/
def splitOnGo (sep : List Char) : List Char → List Char → Nat → List (List Char)
  | [], acc, _ => [acc.reverse]
  | _ :: rest, acc, skip + 1 => splitOnGo sep rest acc skip
  | c :: rest, acc, 0 =>
    if sep.isPrefixOf (c :: rest) then
      acc.reverse :: splitOnGo sep rest [] (sep.length - 1)
    else
      splitOnGo sep rest (c :: acc) 0

/-- Python `text.split(separator)` (non-empty `separator`). -/
def splitOnL (sep l : List Char) : List (List Char) :=
  splitOnGo sep l [] 0

/-- Python `separator.join(parts)`. -/
def joinWith (sep : List Char) : List (List Char) → List Char
  | [] => []
  | [p] => p
  | p :: ps => p ++ sep ++ joinWith sep ps

/-- Python `sub in text` (substring occurrence), for non-empty `sub`. -/
def containsSub (sep : List Char) : List Char → Bool
  | [] => sep.isEmpty
  | c :: rest => sep.isPrefixOf (c :: rest) || containsSub sep rest

/-- The separator-selection loop of `_recursive_split` (lines 83-90):
the first `_s` in the list that is `""` or occurs in `text`. -/
def chooseSepAux (text : List Char) : List (List Char) → Option (List Char)
  | [] => none
  | s :: rest =>
    if s = [] then some s
    else if containsSub s text then some s
    else chooseSepAux text rest

/-- `separator = separators[-1]` followed by the selection loop. -/
def chooseSep (seps : List (List Char)) (text : List Char) : List Char :=
  (chooseSepAux text seps).getD ((seps.getLast?).getD [])

/-- Python `separators.index(separator)`: index of the first occurrence. -/
def idxOfSep (x : List Char) : List (List Char) → Nat
  | [] => 0
  | s :: rest => if s = x then 0 else idxOfSep x rest + 1

/-- The flush of the accumulated `merged_text` (lines 112-117 and 132-136):
join with the current separator and yield the result if non-empty. -/
def flushMerged (sep : List Char) (merged : List (List Char)) : List (List Char) :=
  match merged with
  | [] => []
  | _ =>
    let m := joinWith sep merged
    if 0 < m.length then [m] else []

/-- The merge loop of `_recursive_split` (lines 104-136): fragments shorter
than `chunkSize` are accumulated; a fragment at least `chunkSize` long first
flushes the accumulator, then is expanded by `expand` (recursion into finer
separators, or yielded as-is); a final flush closes the generator. -/
def mergeLoop (expand : List Char → List (List Char)) (sep : List Char)
    (chunkSize : Nat) : List (List Char) → List (List Char) → List (List Char)
  | [], merged => flushMerged sep merged
  | s :: rest, merged =>
    if s.length < chunkSize then
      mergeLoop expand sep chunkSize rest (merged ++ [s])
    else
      flushMerged sep merged ++ expand s ++ mergeLoop expand sep chunkSize rest []

/-- `TranslationService._recursive_split` (lines 65-136), with an explicit
fuel argument bounding the recursion depth.  The Python recursion always
passes `separators[separators.index(separator) + 1:]`, a strict suffix, so
fuel `separators.length` is enough (proved below). -/
def recursiveSplitF : Nat → Nat → List (List Char) → List Char → List (List Char)
  | 0, _, _, _ => []
  | fuel + 1, chunkSize, seps, text =>
    let sep := chooseSep seps text
    let splits := if sep.isEmpty then text.map (fun c => [c]) else splitOnL sep text
    let good := splits.filter (fun s => !(isBlankL s))
    mergeLoop
      (fun s =>
        if sep.isEmpty then [s]
        else
          let nextSeps := seps.drop (idxOfSep sep seps + 1)
          if nextSeps.isEmpty then [s]
          else recursiveSplitF fuel chunkSize nextSeps s)
      sep chunkSize good []

/-- The separator list of `_smart_chunk_text` (lines 157-165). -/
def pySeparators : List (List Char) :=
  [['\n', '\n'], ['\n'], ['.', ' '], ['!', ' '], ['?', ' '], [' '], []]

/-- `TranslationService.CHUNK_SIZE` (line 12). -/
def CHUNK_SIZE : Nat := 200

/-- `TranslationService._smart_chunk_text` (lines 138-170) at the configured
chunk size. -/
def smart_chunk_text (text : String) : List String :=
  if isBlankL text.data then []
  else
    (recursiveSplitF pySeparators.length CHUNK_SIZE pySeparators text.data).map
      (fun l => String.mk l)

/-! ## Translation client (`TranslationService._translate_chunk` and callers) -/

/-- The result dictionary of `_translate_chunk` / `translate_to_english`:
a dictionary with keys `success`, `translated_text`, `error`. -/
structure TransResult where
  success : Bool
  translated_text : String
  error : Option String
deriving DecidableEq, Repr

/-- The process-wide `_translation_cache`, as an association list from the
cache key (the MD5 digest of text and lowercased language code, assumed
collision-free and modelled as the pair itself) to the stored result
dictionary. -/
def Cache : Type := List ((String × String) × TransResult)

/-- Python's `str.lower()` restricted to ASCII (all language codes passed
through the service are ASCII). -/
def charLowerAscii (c : Char) : Char :=
  if 'A' ≤ c && c ≤ 'Z' then Char.ofNat (c.toNat + 32) else c

/-- `source_language.lower()`. -/
def pyLower (s : String) : String :=
  String.mk (s.data.map charLowerAscii)

/-- Dictionary lookup `cache_key in _translation_cache`. -/
def cacheFind (key : String × String) : Cache → Option TransResult
  | [] => none
  | (k, v) :: rest => if k = key then some v else cacheFind key rest

/-- One attempt's outcome at the remote MyMemory endpoint, as seen by the
retry loop: an HTTP response (status code, JSON `responseStatus`,
`responseDetails`, `responseData.translatedText`), a
`Timeout`/`ConnectionError` exception, or any other exception raised while
processing the attempt (e.g. an unparseable body in `response.json()`). -/
inductive ApiResponse where
  | http (status : Nat) (responseStatus : Nat)
      (responseDetails : Option String) (translatedText : String)
  | netError (msg : String)
  | raise (msg : String)
deriving DecidableEq

/-- How the retry loop of `_translate_chunk` (lines 207-262) ended:
an in-loop `return` of a successful translation, a `break` with
`last_error` set (leading to the graceful fallback), or an exception
propagating to the outer handler. -/
inductive LoopOutcome where
  | ok (translated : String)
  | fallback (reason : String)
  | raised (msg : String)
deriving DecidableEq

/-- `TranslationService.MAX_RETRIES` (line 16). -/
def MAX_RETRIES : Nat := 2

/-- The retry loop `for attempt in range(MAX_RETRIES)` of `_translate_chunk`,
together with the number of remote requests actually issued.  `remaining`
counts the iterations left (initially `MAX_RETRIES`); the Python guard
`attempt < MAX_RETRIES - 1` is `remaining > 1`, i.e. `0 < remaining` after
destructing one iteration. -/
def runAttempts (oracle : Nat → ApiResponse) : Nat → Nat → LoopOutcome × Nat
  | _, 0 => (.fallback "None", 0)
  | attempt, remaining + 1 =>
    match oracle attempt with
    | .http status rs _rd tt =>
      if status = 429 then
        if 0 < remaining then
          let r := runAttempts oracle (attempt + 1) remaining
          (r.1, r.2 + 1)
        else (.fallback "Translation service rate limited (too many requests)", 1)
      else if status = 200 then
        if rs = 200 then
          if tt ≠ "" then (.ok tt, 1)
          else (.fallback "Translation returned empty result", 1)
        else (.fallback (_rd.getD "Unknown error"), 1)
      else (.fallback ("HTTP error: " ++ toString status), 1)
    | .netError msg =>
      if 0 < remaining then
        let r := runAttempts oracle (attempt + 1) remaining
        (r.1, r.2 + 1)
      else (.fallback ("Connection failed: " ++ msg), 1)
    | .raise msg => (.raised msg, 1)

/-- The graceful-fallback result of `_translate_chunk` (lines 264-273). -/
def fallbackResult (text reason : String) : TransResult :=
  ⟨true, text, some ("API unavailable, using original text: " ++ reason)⟩

/-- `TranslationService._translate_chunk` (lines 172-281).  The remote
endpoint is an oracle from `(text, source_lang, attempt)` to the attempt's
outcome; the function returns the result dictionary, the updated cache and
the number of remote requests issued. -/
def translate_chunk (oracle : String → String → Nat → ApiResponse)
    (cache : Cache) (text source_language : String) :
    TransResult × Cache × Nat :=
  if isBlankL text.data then (⟨true, "", none⟩, cache, 0)
  else
    let source_lang := (pyLower source_language)
    let key := (text, source_lang)
    match cacheFind key cache with
    | some r => (r, cache, 0)
    | none =>
      match runAttempts (oracle text source_lang) 0 MAX_RETRIES with
      | (.ok t, n) =>
        let r : TransResult := ⟨true, t, none⟩
        (r, (key, r) :: cache, n)
      | (.fallback reason, n) =>
        (fallbackResult text reason, (key, fallbackResult text reason) :: cache, n)
      | (.raised msg, n) =>
        (⟨false, "", some ("Translation failed: " ++ msg)⟩, cache, n)

/-- Maximal runs of non-whitespace characters: Python `s.split()` with no
argument.  `cur` holds the current token reversed. -/
def wsTokensAux : List Char → List Char → List (List Char)
  | [], cur => if cur.isEmpty then [] else [cur.reverse]
  | c :: rest, cur =>
    if pyIsSpace c then
      if cur.isEmpty then wsTokensAux rest []
      else cur.reverse :: wsTokensAux rest []
    else wsTokensAux rest (c :: cur)

/-- The reassembly of `translate_to_english` (lines 336-340):
`' '.join(translated_chunks)` followed by `' '.join(s.split())`. -/
def cleanupJoin (parts : List String) : String :=
  String.mk (joinWith [' '] (wsTokensAux (joinWith [' '] (parts.map String.data)) []))

/-- The chunk loop of `translate_to_english` (lines 322-334): translate the
chunks in sequence order, returning the first hard-failing chunk's result
unchanged, and otherwise the reassembled success result. -/
def translateLoop (oracle : String → String → Nat → ApiResponse)
    (lang : String) : List String → Cache → List String → TransResult × Cache
  | [], cache, acc => (⟨true, cleanupJoin acc, none⟩, cache)
  | ch :: rest, cache, acc =>
    let step := translate_chunk oracle cache ch lang
    if step.1.success then
      translateLoop oracle lang rest step.2.1 (acc ++ [step.1.translated_text])
    else (step.1, step.2.1)

/-- `TranslationService.translate_to_english` (lines 283-357). -/
def translate_to_english (oracle : String → String → Nat → ApiResponse)
    (cache : Cache) (text source_language : String) : TransResult × Cache :=
  if isBlankL text.data then (⟨false, "", some "Empty text provided"⟩, cache)
  else if (pyLower source_language) = "en" then (⟨true, text, none⟩, cache)
  else translateLoop oracle (pyLower source_language) (smart_chunk_text text) cache []

/-- The result dictionary of `translate_pages`. -/
structure PagesResult where
  success : Bool
  translated_texts : List String
  error : Option String
deriving DecidableEq, Repr

/-- The page loop of `translate_pages` (lines 371-379): a failed page
contributes `''`. -/
def pagesLoop (oracle : String → String → Nat → ApiResponse) (lang : String) :
    List String → Cache → List String × Cache
  | [], cache => ([], cache)
  | t :: rest, cache =>
    let step := translate_to_english oracle cache t lang
    let tail := pagesLoop oracle lang rest step.2
    ((if step.1.success then step.1.translated_text else "") :: tail.1, tail.2)

/-- `TranslationService.translate_pages` (lines 359-391), absent an
unexpected internal exception. -/
def translate_pages (oracle : String → String → Nat → ApiResponse)
    (cache : Cache) (texts : List String) (source_language : String) :
    PagesResult × Cache :=
  let loop := pagesLoop oracle source_language texts cache
  (⟨true, loop.1, none⟩, loop.2)

/-- The cache state after translating a list of chunks in sequence from a
given cache (the state `translate_to_english`'s loop reaches before the
next chunk). -/
def cacheAfterChunks (oracle : String → String → Nat → ApiResponse)
    (lang : String) : List String → Cache → Cache
  | [], c => c
  | ch :: rest, c =>
    cacheAfterChunks oracle lang rest (translate_chunk oracle c ch lang).2.1

/-- Every chunk in the list, translated in sequence from the given cache,
succeeds (`result['success']` truthy). -/
def prefixOkB (oracle : String → String → Nat → ApiResponse)
    (lang : String) : List String → Cache → Bool
  | [], _ => true
  | ch :: rest, c =>
    (translate_chunk oracle c ch lang).1.success &&
      prefixOkB oracle lang rest (translate_chunk oracle c ch lang).2.1

/-- The cache state after processing a list of pages with
`translate_to_english` in sequence. -/
def cacheAfterPages (oracle : String → String → Nat → ApiResponse)
    (lang : String) : List String → Cache → Cache
  | [], c => c
  | t :: rest, c =>
    cacheAfterPages oracle lang rest (translate_to_english oracle c t lang).2

/-- Every stored cache entry has `success=True` — the invariant of the real
process-wide cache, which only ever stores successful or graceful-fallback
results. -/
def cacheWF (c : Cache) : Bool :=
  (c.map (fun kv => kv.2.success)).all (fun b => b)

/-! ## Language detection (`LanguageDetectionService`) -/

/-- The outcome of the underlying `langdetect.detect_langs` call: a ranked
list of `(languageCode, probability)` candidates, a `LangDetectException`,
or any other exception. -/
inductive DetectOutcome where
  | langs (ranked : List (String × ℚ))
  | langDetectExc (msg : String)
  | otherExc (msg : String)

/-- The result dictionary of `detect_language`. -/
structure DetectionResult where
  success : Bool
  language_code : Option String
  language_name : Option String
  confidence : ℚ
  error : Option String
deriving DecidableEq, Repr

/-- Association-list lookup with default: Python `dict.get(k, d)`. -/
def lookupD (m : List (String × String)) (k d : String) : String :=
  match m with
  | [] => d
  | (k2, v) :: rest => if k2 = k then v else lookupD rest k d

/-- The `LANGUAGE_NAMES` mapping of `language_detection_service.py`
(lines 6-62). -/
def LANGUAGE_NAMES : List (String × String) :=
  [("af", "Afrikaans"), ("ar", "Arabic"), ("bg", "Bulgarian"),
   ("bn", "Bengali"), ("ca", "Catalan"), ("cs", "Czech"), ("cy", "Welsh"),
   ("da", "Danish"), ("de", "German"), ("el", "Greek"), ("en", "English"),
   ("es", "Spanish"), ("et", "Estonian"), ("fa", "Persian"),
   ("fi", "Finnish"), ("fr", "French"), ("gu", "Gujarati"),
   ("he", "Hebrew"), ("hi", "Hindi"), ("hr", "Croatian"),
   ("hu", "Hungarian"), ("id", "Indonesian"), ("it", "Italian"),
   ("ja", "Japanese"), ("kn", "Kannada"), ("ko", "Korean"),
   ("lt", "Lithuanian"), ("lv", "Latvian"), ("mk", "Macedonian"),
   ("ml", "Malayalam"), ("mr", "Marathi"), ("ne", "Nepali"),
   ("nl", "Dutch"), ("no", "Norwegian"), ("pa", "Punjabi"),
   ("pl", "Polish"), ("pt", "Portuguese"), ("ro", "Romanian"),
   ("ru", "Russian"), ("sk", "Slovak"), ("sl", "Slovenian"),
   ("so", "Somali"), ("sq", "Albanian"), ("sv", "Swedish"),
   ("ta", "Tamil"), ("te", "Telugu"), ("th", "Thai"), ("tl", "Tagalog"),
   ("tr", "Turkish"), ("uk", "Ukrainian"), ("ur", "Urdu"),
   ("vi", "Vietnamese"), ("zh", "Chinese"), ("zh-cn", "Chinese (Simplified)"),
   ("zh-tw", "Chinese (Traditional)")]

/-- `LanguageDetectionService.detect_language` (lines 72-135).  The second
component records whether the underlying algorithm was invoked. -/
def detect_language (oracle : String → DetectOutcome) (text : String) :
    DetectionResult × Bool :=
  if isBlankL text.data then
    (⟨false, none, none, 0, some "Empty text provided"⟩, false)
  else
    match oracle text with
    | .langs [] => (⟨false, none, none, 0, some "Could not detect language"⟩, true)
    | .langs ((code, prob) :: _) =>
      (⟨true, some code, some (lookupD LANGUAGE_NAMES code code), prob, none⟩, true)
    | .langDetectExc m =>
      (⟨false, none, none, 0, some ("Language detection failed: " ++ m)⟩, true)
    | .otherExc m =>
      (⟨false, none, none, 0, some ("Language detection error: " ++ m)⟩, true)

/-- Python `' '.join(parts)`, on strings. -/
def joinSpStr : List String → String
  | [] => ""
  | [t] => t
  | t :: rest => t ++ " " ++ joinSpStr rest

/-- `' '.join([t for t in texts if t and t.strip() != ''])` (line 160). -/
def joinNonBlank (texts : List String) : String :=
  joinSpStr (texts.filter (fun t => !(isBlankL t.data)))

/-- `LanguageDetectionService.detect_language_from_pages` (lines 137-180). -/
def detect_language_from_pages (oracle : String → DetectOutcome)
    (texts : List String) : DetectionResult × Bool :=
  if texts.isEmpty || texts.all (fun t => isBlankL t.data) then
    (⟨false, none, none, 0, some "No text provided"⟩, false)
  else
    let combined := joinNonBlank texts
    if isBlankL combined.data then
      (⟨false, none, none, 0, some "No valid text to detect"⟩, false)
    else detect_language oracle combined

/-! ## Multilingual OCR pipeline (`MultilingualOCRService`) -/

/-- The fields of the result dictionary of `process_image_multilingual`
relevant here. -/
structure MultiOcrResult where
  extracted_text : String
  original_language : String
  original_text : Option String
  translated : Bool
  detected_language : String
deriving DecidableEq, Repr

/-- The `LANGUAGE_CODES` mapping of `multilingual_ocr_service.py`
(lines 42-63), Tesseract code → language name. -/
def TESS_LANGUAGE_CODES : List (String × String) :=
  [("eng", "English"), ("fra", "French"), ("deu", "German"),
   ("spa", "Spanish"), ("ita", "Italian"), ("por", "Portuguese"),
   ("rus", "Russian"), ("jpn", "Japanese"), ("kor", "Korean"),
   ("zho", "Chinese"), ("ara", "Arabic"), ("hin", "Hindi"),
   ("ben", "Bengali"), ("nld", "Dutch"), ("swe", "Swedish"),
   ("pol", "Polish"), ("tur", "Turkish"), ("gre", "Greek"),
   ("heb", "Hebrew"), ("tha", "Thai")]

/-- `MultilingualOCRService.process_image_multilingual` (lines 79-121),
with the OCR extraction (`_process_with_language`), the detected Tesseract
language code (`_detect_language_from_image`) and the text translator
(`_translate_to_english`) supplied as parameters. -/
def process_image_multilingual (detected_lang : String) (extracted : String)
    (translator : String → String) : MultiOcrResult :=
  if detected_lang ≠ "eng" then
    { extracted_text := translator extracted
      original_language := lookupD TESS_LANGUAGE_CODES detected_lang detected_lang
      original_text := some extracted
      translated := true
      detected_language := lookupD TESS_LANGUAGE_CODES detected_lang detected_lang }
  else
    { extracted_text := extracted
      original_language := "English"
      original_text := none
      translated := false
      detected_language := lookupD TESS_LANGUAGE_CODES detected_lang detected_lang }

/-! ## Concrete inputs and oracles used by witnesses and counterexamples -/

/-- `"ab ab … ab"`: 200 copies of `"ab"` joined by single spaces
(599 characters, every fragment small). -/
def manySmallWords : List Char :=
  joinWith [' '] (List.replicate 200 ['a', 'b'])

/-- A remote endpoint that is rate-limited (HTTP 429) on every attempt. -/
def oracle429 : String → String → Nat → ApiResponse :=
  fun _ _ _ => .http 429 0 none ""

/-- A remote endpoint whose response body is unparseable on every attempt,
so that processing it raises an unexpected exception. -/
def oracleBoom : String → String → Nat → ApiResponse :=
  fun _ _ _ => .raise "boom"

/-- A remote endpoint that always translates successfully. -/
def oracleOkay : String → String → Nat → ApiResponse :=
  fun _ _ _ => .http 200 200 none "translated"

/-- A `langdetect` oracle that returns no candidates. -/
def oracleNoLangs : String → DetectOutcome :=
  fun _ => .langs []

/-- A `langdetect` oracle that always ranks French first. -/
def oracleFrench : String → DetectOutcome :=
  fun _ => .langs [("fr", 99/100)]

/-- Normalized content of a chunk list: the concatenation of the chunks'
normalized contents. -/
def normJoin (cl : List (List Char)) : List Char :=
  (cl.map normContent).flatten

/-- Every separator in the list consists only of separator characters
(true of the configured `pySeparators`). -/
def sepsOKb (seps : List (List Char)) : Bool :=
  seps.all (fun sep => sep.all sepChar)

/-! ## Lemmas about the chunker -/

theorem joinWith_cons (sep p : List Char) {ps : List (List Char)} (h : ps ≠ []) :
    joinWith sep (p :: ps) = p ++ sep ++ joinWith sep ps := by
  cases ps with
  | nil => exact absurd rfl h
  | cons q qs => rfl

theorem splitOnGo_ne_nil (sep : List Char) :
    ∀ (l acc : List Char) (skip : Nat), splitOnGo sep l acc skip ≠ [] := by
  intro l
  induction l with
  | nil => intro acc skip; simp [splitOnGo]
  | cons c rest ih =>
    intro acc skip
    cases skip with
    | zero =>
      rw [splitOnGo]
      by_cases hpre : sep.isPrefixOf (c :: rest) = true
      · rw [if_pos hpre]; simp
      · rw [if_neg hpre]; exact ih _ _
    | succ k =>
      rw [splitOnGo]
      exact ih _ _

theorem joinWith_splitOnGo (sep : List Char) (hsep : sep ≠ []) :
    ∀ (l acc : List Char) (skip : Nat),
      joinWith sep (splitOnGo sep l acc skip) = acc.reverse ++ l.drop skip := by
  intro l
  induction l with
  | nil => intro acc skip; simp [splitOnGo, joinWith]
  | cons c rest ih =>
    intro acc skip
    cases skip with
    | zero =>
      rw [splitOnGo]
      by_cases hpre : sep.isPrefixOf (c :: rest) = true
      · rw [if_pos hpre]
        rw [joinWith_cons sep _ (splitOnGo_ne_nil sep _ _ _)]
        rw [ih]
        obtain ⟨t, ht⟩ := List.isPrefixOf_iff_prefix.mp hpre
        obtain ⟨k, hk⟩ := Nat.exists_eq_succ_of_ne_zero
          (fun h0 => hsep (List.length_eq_zero.mp h0))
        have hdrop : rest.drop (sep.length - 1) = t := by
          have hd : (c :: rest).drop sep.length = t := by
            rw [← ht, List.drop_left]
          rw [hk] at hd
          simpa [hk] using hd
        rw [hdrop]
        simp only [List.reverse_nil, List.nil_append, List.drop_zero]
        rw [List.append_assoc, ht]
      · rw [if_neg hpre]
        rw [ih]
        simp
    | succ k =>
      rw [splitOnGo]
      rw [ih]
      simp

theorem joinWith_splitOnL (sep : List Char) (hsep : sep ≠ []) (l : List Char) :
    joinWith sep (splitOnL sep l) = l := by
  simpa using joinWith_splitOnGo sep hsep l [] 0

theorem normContent_append (a b : List Char) :
    normContent (a ++ b) = normContent a ++ normContent b := by
  simp [normContent, List.filter_append]

theorem normContent_eq_nil_of_all (sep : List Char) (h : sep.all sepChar = true) :
    normContent sep = [] := by
  simp only [normContent, List.filter_eq_nil_iff]
  intro c hc
  have hcs := (List.all_eq_true.mp h) c hc
  simp [hcs]

theorem normContent_of_blank {s : List Char} (h : isBlankL s = true) :
    normContent s = [] := by
  apply normContent_eq_nil_of_all
  simp only [isBlankL, List.all_eq_true] at h
  simp only [List.all_eq_true]
  intro c hc
  simp [sepChar, h c hc]

theorem normContent_joinWith (sep : List Char) (hsep : normContent sep = []) :
    ∀ parts : List (List Char),
      normContent (joinWith sep parts) = normJoin parts := by
  intro parts
  induction parts with
  | nil => simp [joinWith, normContent, normJoin]
  | cons p ps ih =>
    cases ps with
    | nil => simp [joinWith, normJoin]
    | cons q qs =>
      rw [joinWith_cons sep p (by simp)]
      rw [normContent_append, normContent_append, hsep, ih]
      simp [normJoin]

theorem normJoin_append (a b : List (List Char)) :
    normJoin (a ++ b) = normJoin a ++ normJoin b := by
  simp [normJoin]

theorem normJoin_filter_blank (splits : List (List Char)) :
    normJoin (splits.filter (fun s => !(isBlankL s))) = normJoin splits := by
  induction splits with
  | nil => rfl
  | cons s rest ih =>
    by_cases h : isBlankL s = true
    · rw [List.filter_cons_of_neg (by simp [h])]
      rw [ih]
      simp [normJoin, normContent_of_blank h]
    · rw [List.filter_cons_of_pos (by simp [h])]
      simp only [normJoin, List.map_cons, List.flatten_cons] at *
      rw [ih]

theorem normJoin_charSplit (text : List Char) :
    normJoin (text.map (fun c => [c])) = normContent text := by
  induction text with
  | nil => rfl
  | cons c rest ih =>
    simp only [List.map_cons, normJoin, List.flatten_cons] at *
    rw [ih]
    by_cases h : sepChar c = true
    · simp [normContent, List.filter, h]
    · simp only [Bool.not_eq_true] at h
      simp [normContent, List.filter, h]

theorem normJoin_flushMerged (sep : List Char) (merged : List (List Char)) :
    normJoin (flushMerged sep merged) = normContent (joinWith sep merged) := by
  cases merged with
  | nil => simp [flushMerged, joinWith, normContent, normJoin]
  | cons p ps =>
    simp only [flushMerged]
    by_cases h : 0 < (joinWith sep (p :: ps)).length
    · rw [if_pos h]
      simp [normJoin]
    · rw [if_neg h]
      have : joinWith sep (p :: ps) = [] := by
        cases hj : joinWith sep (p :: ps) with
        | nil => rfl
        | cons x xs => rw [hj] at h; simp at h
      rw [this]
      simp [normJoin, normContent]

theorem normJoin_mergeLoop (expand : List Char → List (List Char))
    (sep : List Char) (cs : Nat) (hsep : normContent sep = []) :
    ∀ (l merged : List (List Char)),
      (∀ s ∈ l, ¬(s.length < cs) → normJoin (expand s) = normContent s) →
      normJoin (mergeLoop expand sep cs l merged) =
        normJoin merged ++ normJoin l := by
  intro l
  induction l with
  | nil =>
    intro merged _
    rw [mergeLoop, normJoin_flushMerged, normContent_joinWith sep hsep]
    simp [normJoin]
  | cons s rest ih =>
    intro merged hexp
    rw [mergeLoop]
    by_cases h : s.length < cs
    · rw [if_pos h, ih (merged ++ [s]) (fun x hx => hexp x (List.mem_cons_of_mem s hx))]
      rw [normJoin_append]
      simp [normJoin, List.append_assoc]
    · rw [if_neg h]
      rw [normJoin_append, normJoin_append]
      rw [normJoin_flushMerged, normContent_joinWith sep hsep]
      rw [ih [] (fun x hx => hexp x (List.mem_cons_of_mem s hx))]
      rw [hexp s (List.mem_cons_self s rest) h]
      simp [normJoin]

theorem chooseSepAux_mem {text : List Char} :
    ∀ {seps : List (List Char)} {s : List Char},
      chooseSepAux text seps = some s → s ∈ seps := by
  intro seps
  induction seps with
  | nil => intro s h; simp [chooseSepAux] at h
  | cons a rest ih =>
    intro s h
    simp only [chooseSepAux] at h
    by_cases ha : a = []
    · rw [if_pos ha] at h
      exact (Option.some_inj.mp h) ▸ List.mem_cons_self a rest
    · rw [if_neg ha] at h
      by_cases hb : containsSub a text = true
      · rw [if_pos hb] at h
        exact (Option.some_inj.mp h) ▸ List.mem_cons_self a rest
      · rw [if_neg hb] at h
        exact List.mem_cons_of_mem a (ih h)

theorem chooseSep_mem {seps : List (List Char)} (h : seps ≠ [])
    (text : List Char) : chooseSep seps text ∈ seps := by
  unfold chooseSep
  cases hc : chooseSepAux text seps with
  | some s =>
    simp only [Option.getD_some]
    exact chooseSepAux_mem hc
  | none =>
    simp only [Option.getD_none]
    rw [List.getLast?_eq_getLast seps h]
    simp only [Option.getD_some]
    exact List.getLast_mem h

theorem sepsOKb_drop {seps : List (List Char)} (h : sepsOKb seps = true)
    (n : Nat) : sepsOKb (seps.drop n) = true := by
  simp only [sepsOKb, List.all_eq_true] at h ⊢
  intro sep hsep
  exact h sep (List.drop_subset n seps hsep)

theorem drop_idx_length_lt {seps : List (List Char)} (h : seps ≠ [])
    (k : Nat) : (seps.drop (k + 1)).length < seps.length := by
  rw [List.length_drop]
  have : 0 < seps.length := List.length_pos.mpr h
  omega

theorem rsF_norm :
    ∀ (fuel cs : Nat) (seps : List (List Char)) (text : List Char),
      seps ≠ [] → seps.length ≤ fuel → sepsOKb seps = true →
      normJoin (recursiveSplitF fuel cs seps text) = normContent text := by
  intro fuel
  induction fuel with
  | zero =>
    intro cs seps text hne hlen _
    have : 0 < seps.length := List.length_pos.mpr hne
    omega
  | succ f ih =>
    intro cs seps text hne hlen hok
    rw [recursiveSplitF]
    have hexp : ∀ s ∈ (if (chooseSep seps text).isEmpty then
          text.map (fun c => [c]) else splitOnL (chooseSep seps text) text).filter
            (fun s => !(isBlankL s)),
        ¬(s.length < cs) →
        normJoin ((fun s =>
          if (chooseSep seps text).isEmpty then [s]
          else
            if (seps.drop (idxOfSep (chooseSep seps text) seps + 1)).isEmpty then [s]
            else recursiveSplitF f cs
              (seps.drop (idxOfSep (chooseSep seps text) seps + 1)) s) s) =
          normContent s := by
      intro s _ _
      by_cases hE : (chooseSep seps text).isEmpty
      · simp only [if_pos hE, normJoin, List.map_cons, List.map_nil,
          List.flatten_cons, List.flatten_nil, List.append_nil]
      · simp only [if_neg hE]
        by_cases hN : (seps.drop (idxOfSep (chooseSep seps text) seps + 1)).isEmpty
        · simp only [if_pos hN, normJoin, List.map_cons, List.map_nil,
            List.flatten_cons, List.flatten_nil, List.append_nil]
        · simp only [if_neg hN]
          apply ih cs _ s
          · exact fun hn => hN (by simp [hn])
          · have hlt := drop_idx_length_lt hne (idxOfSep (chooseSep seps text) seps)
            omega
          · exact sepsOKb_drop hok _
    have hnorm : normContent (chooseSep seps text) = [] := by
      apply normContent_eq_nil_of_all
      exact (List.all_eq_true.mp hok) _ (chooseSep_mem hne text)
    rw [normJoin_mergeLoop _ _ _ hnorm _ [] hexp]
    have h0 : normJoin ([] : List (List Char)) = [] := rfl
    rw [h0, List.nil_append]
    rw [normJoin_filter_blank]
    by_cases hE : (chooseSep seps text).isEmpty
    · rw [if_pos hE]
      exact normJoin_charSplit text
    · rw [if_neg hE]
      rw [← normContent_joinWith _ hnorm]
      rw [joinWith_splitOnL _ (by simpa using hE) text]

/-! ## Lemmas about the translation client and pipeline -/

theorem cacheFind_cons_self (key : String × String) (r : TransResult)
    (c : Cache) : cacheFind key ((key, r) :: c) = some r := by
  simp [cacheFind]

theorem cacheWF_find {c : Cache} (hwf : cacheWF c = true)
    {key : String × String} {r : TransResult}
    (hfind : cacheFind key c = some r) : r.success = true := by
  induction c with
  | nil => simp [cacheFind] at hfind
  | cons kv rest ih =>
    obtain ⟨k, v⟩ := kv
    simp only [cacheWF, List.map_cons, List.all_cons, Bool.and_eq_true] at hwf
    simp only [cacheFind] at hfind
    by_cases hk : k = key
    · rw [if_pos hk] at hfind
      cases hfind
      exact hwf.1
    · rw [if_neg hk] at hfind
      exact ih (by simp [cacheWF, hwf.2]) hfind

theorem cacheWF_cons {key : String × String} {r : TransResult} {c : Cache}
    (hr : r.success = true) (hwf : cacheWF c = true) :
    cacheWF ((key, r) :: c) = true := by
  simp only [cacheWF, List.map_cons, List.all_cons, Bool.and_eq_true] at *
  exact ⟨hr, hwf⟩

theorem translate_chunk_blank (oracle : String → String → Nat → ApiResponse)
    (c : Cache) {t : String} (lang : String) (hb : isBlankL t.data = true) :
    translate_chunk oracle c t lang = (⟨true, "", none⟩, c, 0) := by
  unfold translate_chunk
  rw [if_pos hb]

theorem translate_chunk_hit (oracle : String → String → Nat → ApiResponse)
    {c : Cache} {t lang : String} (hb : isBlankL t.data = false)
    {r : TransResult} (hcf : cacheFind (t, (pyLower lang)) c = some r) :
    translate_chunk oracle c t lang = (r, c, 0) := by
  unfold translate_chunk
  rw [if_neg (by simp [hb])]
  dsimp only
  rw [hcf]

theorem translate_chunk_ok (oracle : String → String → Nat → ApiResponse)
    {c : Cache} {t lang : String} (hb : isBlankL t.data = false)
    (hcf : cacheFind (t, (pyLower lang)) c = none) {tr : String} {n : Nat}
    (hra : runAttempts (oracle t (pyLower lang)) 0 MAX_RETRIES = (.ok tr, n)) :
    translate_chunk oracle c t lang =
      (⟨true, tr, none⟩,
       ((t, (pyLower lang)), (⟨true, tr, none⟩ : TransResult)) :: c, n) := by
  unfold translate_chunk
  rw [if_neg (by simp [hb])]
  dsimp only
  rw [hcf, hra]

theorem translate_chunk_fallback (oracle : String → String → Nat → ApiResponse)
    {c : Cache} {t lang : String} (hb : isBlankL t.data = false)
    (hcf : cacheFind (t, (pyLower lang)) c = none) {reason : String} {n : Nat}
    (hra : runAttempts (oracle t (pyLower lang)) 0 MAX_RETRIES
      = (.fallback reason, n)) :
    translate_chunk oracle c t lang =
      (fallbackResult t reason,
       ((t, (pyLower lang)), fallbackResult t reason) :: c, n) := by
  unfold translate_chunk
  rw [if_neg (by simp [hb])]
  dsimp only
  rw [hcf, hra]

theorem translate_chunk_raised (oracle : String → String → Nat → ApiResponse)
    {c : Cache} {t lang : String} (hb : isBlankL t.data = false)
    (hcf : cacheFind (t, (pyLower lang)) c = none) {m : String} {n : Nat}
    (hra : runAttempts (oracle t (pyLower lang)) 0 MAX_RETRIES = (.raised m, n)) :
    translate_chunk oracle c t lang =
      (⟨false, "", some ("Translation failed: " ++ m)⟩, c, n) := by
  unfold translate_chunk
  rw [if_neg (by simp [hb])]
  dsimp only
  rw [hcf, hra]

theorem cacheWF_translate_chunk (oracle : String → String → Nat → ApiResponse)
    {c : Cache} (t lang : String) (hwf : cacheWF c = true) :
    cacheWF (translate_chunk oracle c t lang).2.1 = true := by
  by_cases hb : isBlankL t.data = true
  · rw [translate_chunk_blank oracle c lang hb]
    exact hwf
  · replace hb : isBlankL t.data = false := by simpa using hb
    cases hcf : cacheFind (t, (pyLower lang)) c with
    | some r =>
      rw [translate_chunk_hit oracle hb hcf]
      exact hwf
    | none =>
      rcases hra : runAttempts (oracle t (pyLower lang)) 0 MAX_RETRIES with ⟨o, n⟩
      cases o with
      | ok tr =>
        rw [translate_chunk_ok oracle hb hcf hra]
        exact cacheWF_cons rfl hwf
      | fallback reason =>
        rw [translate_chunk_fallback oracle hb hcf hra]
        exact cacheWF_cons rfl hwf
      | raised m =>
        rw [translate_chunk_raised oracle hb hcf hra]
        exact hwf

theorem translate_chunk_fail_shape (oracle : String → String → Nat → ApiResponse)
    {c : Cache} (t lang : String) (hwf : cacheWF c = true)
    (hf : (translate_chunk oracle c t lang).1.success = false) :
    (translate_chunk oracle c t lang).1.translated_text = "" ∧
      ∃ m, (translate_chunk oracle c t lang).1.error =
        some ("Translation failed: " ++ m) := by
  by_cases hb : isBlankL t.data = true
  · rw [translate_chunk_blank oracle c lang hb] at hf
    simp at hf
  · replace hb : isBlankL t.data = false := by simpa using hb
    cases hcf : cacheFind (t, (pyLower lang)) c with
    | some r =>
      rw [translate_chunk_hit oracle hb hcf] at hf
      have hrs : r.success = false := by simpa using hf
      exact absurd (cacheWF_find hwf hcf) (by simp [hrs])
    | none =>
      rcases hra : runAttempts (oracle t (pyLower lang)) 0 MAX_RETRIES with ⟨o, n⟩
      cases o with
      | ok tr =>
        rw [translate_chunk_ok oracle hb hcf hra] at hf
        simp at hf
      | fallback reason =>
        rw [translate_chunk_fallback oracle hb hcf hra] at hf
        simp [fallbackResult] at hf
      | raised m =>
        rw [translate_chunk_raised oracle hb hcf hra] at hf ⊢
        exact ⟨rfl, m, rfl⟩

theorem translateLoop_fail (oracle : String → String → Nat → ApiResponse)
    (lang : String) :
    ∀ (pre : List String) (c : Cache) (acc : List String)
      (ch : String) (post : List String),
      prefixOkB oracle lang pre c = true →
      (translate_chunk oracle (cacheAfterChunks oracle lang pre c) ch lang).1.success
        = false →
      translateLoop oracle lang (pre ++ ch :: post) c acc =
        ((translate_chunk oracle (cacheAfterChunks oracle lang pre c) ch lang).1,
         (translate_chunk oracle (cacheAfterChunks oracle lang pre c) ch lang).2.1) := by
  intro pre
  induction pre with
  | nil =>
    intro c acc ch post _ hfail
    simp only [cacheAfterChunks] at hfail ⊢
    rw [List.nil_append, translateLoop]
    simp only [hfail, Bool.false_eq_true, if_false]
  | cons p ps ih =>
    intro c acc ch post hok hfail
    simp only [prefixOkB, Bool.and_eq_true] at hok
    rw [List.cons_append, translateLoop]
    simp only [hok.1, if_true]
    exact ih _ _ ch post hok.2 (by simpa [cacheAfterChunks] using hfail)

theorem cacheWF_cacheAfterChunks (oracle : String → String → Nat → ApiResponse)
    (lang : String) :
    ∀ (pre : List String) (c : Cache), cacheWF c = true →
      cacheWF (cacheAfterChunks oracle lang pre c) = true := by
  intro pre
  induction pre with
  | nil => intro c h; exact h
  | cons p ps ih =>
    intro c h
    exact ih _ (cacheWF_translate_chunk oracle p lang h)

theorem translate_to_english_blank (oracle : String → String → Nat → ApiResponse)
    (c : Cache) {t : String} (lang : String) (hb : isBlankL t.data = true) :
    translate_to_english oracle c t lang =
      (⟨false, "", some "Empty text provided"⟩, c) := by
  unfold translate_to_english
  rw [if_pos hb]

theorem translate_to_english_en (oracle : String → String → Nat → ApiResponse)
    (c : Cache) {t lang : String} (hb : isBlankL t.data = false)
    (hl : (pyLower lang) = "en") :
    translate_to_english oracle c t lang = (⟨true, t, none⟩, c) := by
  unfold translate_to_english
  rw [if_neg (by simp [hb]), if_pos hl]

theorem pagesLoop_length (oracle : String → String → Nat → ApiResponse)
    (lang : String) :
    ∀ (texts : List String) (c : Cache),
      (pagesLoop oracle lang texts c).1.length = texts.length := by
  intro texts
  induction texts with
  | nil => intro c; rfl
  | cons t rest ih =>
    intro c
    simp only [pagesLoop, List.length_cons, ih]

theorem pagesLoop_getD (oracle : String → String → Nat → ApiResponse)
    (lang : String) :
    ∀ (texts : List String) (c : Cache) (i : Nat), i < texts.length →
      (pagesLoop oracle lang texts c).1.getD i "" =
        (if (translate_to_english oracle
              (cacheAfterPages oracle lang (texts.take i) c)
              (texts.getD i "") lang).1.success
         then (translate_to_english oracle
              (cacheAfterPages oracle lang (texts.take i) c)
              (texts.getD i "") lang).1.translated_text
         else "") := by
  intro texts
  induction texts with
  | nil => intro c i hi; simp at hi
  | cons t rest ih =>
    intro c i hi
    cases i with
    | zero =>
      simp only [pagesLoop, List.getD_cons_zero, List.take_zero, cacheAfterPages]
    | succ j =>
      simp only [pagesLoop, List.getD_cons_succ, List.take_succ_cons,
        cacheAfterPages]
      exact ih _ j (by simpa using hi)

theorem joinSpStr_not_blank :
    ∀ l : List String, (∀ t ∈ l, isBlankL t.data = false) → l ≠ [] →
      isBlankL (joinSpStr l).data = false := by
  intro l
  induction l with
  | nil => intro _ h; exact absurd rfl h
  | cons t rest ih =>
    intro hall _
    cases rest with
    | nil => exact hall t (List.mem_singleton.mpr rfl)
    | cons u us =>
      show isBlankL (t ++ " " ++ joinSpStr (u :: us)).data = false
      rw [String.data_append, String.data_append]
      simp only [isBlankL, List.all_append, Bool.and_eq_false_iff]
      left; left
      exact hall t (List.mem_cons_self t (u :: us))

theorem mergeLoop_congr (e1 e2 : List Char → List (List Char))
    (sep : List Char) (cs : Nat) :
    ∀ (l merged : List (List Char)), (∀ s ∈ l, e1 s = e2 s) →
      mergeLoop e1 sep cs l merged = mergeLoop e2 sep cs l merged := by
  intro l
  induction l with
  | nil => intro merged _; rfl
  | cons s rest ih =>
    intro merged h
    rw [mergeLoop, mergeLoop]
    by_cases hs : s.length < cs
    · rw [if_pos hs, if_pos hs,
        ih _ (fun x hx => h x (List.mem_cons_of_mem s hx))]
    · rw [if_neg hs, if_neg hs, h s (List.mem_cons_self s rest),
        ih _ (fun x hx => h x (List.mem_cons_of_mem s hx))]

theorem rsF_stable :
    ∀ (n f1 f2 cs : Nat) (seps : List (List Char)) (text : List Char),
      seps.length ≤ n → seps ≠ [] → seps.length ≤ f1 → seps.length ≤ f2 →
      recursiveSplitF f1 cs seps text = recursiveSplitF f2 cs seps text := by
  intro n
  induction n with
  | zero =>
    intro f1 f2 cs seps text hn hne _ _
    have : 0 < seps.length := List.length_pos.mpr hne
    omega
  | succ m ih =>
    intro f1 f2 cs seps text hn hne h1 h2
    have hpos : 0 < seps.length := List.length_pos.mpr hne
    cases f1 with
    | zero => omega
    | succ a =>
      cases f2 with
      | zero => omega
      | succ b =>
        rw [recursiveSplitF, recursiveSplitF]
        apply mergeLoop_congr
        intro s _
        by_cases hE : (chooseSep seps text).isEmpty
        · rw [if_pos hE, if_pos hE]
        · rw [if_neg hE, if_neg hE]
          by_cases hN : (seps.drop (idxOfSep (chooseSep seps text) seps + 1)).isEmpty
          · rw [if_pos hN, if_pos hN]
          · rw [if_neg hN, if_neg hN]
            have hlt := drop_idx_length_lt hne (idxOfSep (chooseSep seps text) seps)
            apply ih a b cs _ s
            · omega
            · exact fun hnil => hN (by simp [hnil])
            · omega
            · omega

/-! ## Claim theorems -/

/-- Claim C1 (code bug, evaluation at the failing input): on the input
`"ab ab … ab"` (200 two-letter words joined by single spaces, 599
characters), `_smart_chunk_text` returns a single chunk equal to the whole
input: 599 characters long, far above both the configured
`CHUNK_SIZE = 200` and the specified 500-unit bound, even though the chunk
contains the `" "` separator and is therefore not an atomic unit.  The
merge loop accumulates small fragments without ever flushing on size, so
the claimed invariant "chunk length ≤ configured maximum unless the chunk
is a single atomic unit" does not hold; the repository's own property test
(`test_property_5_chunk_size_respects_limits`) asserts the claimed bound. -/
theorem c1_merged_chunk_exceeds_bound :
    smart_chunk_text (String.mk manySmallWords) = [String.mk manySmallWords] ∧
    (String.mk manySmallWords).length = 599 ∧
    500 < (String.mk manySmallWords).length ∧
    containsSub [' '] manySmallWords = true ∧
    CHUNK_SIZE = 200 :=
  ⟨by decide, by decide, by decide, by decide, rfl⟩

/-- Claim C4: concatenating the chunks produced by `_smart_chunk_text` in
order preserves, character for character, the whole non-whitespace content
of the input once separator characters (whitespace and the sentence-ending
punctuation marks that occur in the configured separator strings) are
ignored on both sides: nothing is lost, duplicated, or reordered. -/
theorem c4_chunking_covers_content (text : String) :
    normJoin ((smart_chunk_text text).map String.data) =
      normContent text.data := by
  unfold smart_chunk_text
  by_cases hb : isBlankL text.data = true
  · rw [if_pos hb]
    simp [normJoin, normContent_of_blank hb]
  · rw [if_neg hb]
    rw [List.map_map]
    have hid : (String.data ∘ fun l => String.mk l) = id := rfl
    rw [hid, List.map_id]
    exact rsF_norm pySeparators.length CHUNK_SIZE pySeparators text.data
      (by decide) (le_refl _) (by decide)

/-- Claim C10: `_recursive_split` terminates on every text and every
non-empty separator list.  First conjunct: the fuel-indexed embedding is
independent of the fuel once the fuel reaches the separator-list length,
because every recursive call passes the strict suffix
`separators[separators.index(separator) + 1:]`; second conjunct: that
suffix is strictly shorter than the separator list. -/
theorem c10_recursive_split_terminates :
    (∀ (f1 f2 cs : Nat) (seps : List (List Char)) (text : List Char),
        seps ≠ [] → seps.length ≤ f1 → seps.length ≤ f2 →
        recursiveSplitF f1 cs seps text = recursiveSplitF f2 cs seps text) ∧
    (∀ (seps : List (List Char)) (sep : List Char), seps ≠ [] →
        (seps.drop (idxOfSep sep seps + 1)).length < seps.length) := by
  constructor
  · intro f1 f2 cs seps text hne h1 h2
    exact rsF_stable seps.length f1 f2 cs seps text (le_refl _) hne h1 h2
  · intro seps sep hne
    exact drop_idx_length_lt hne _

/-- Witness for C10 at a concrete input: on `"a. b"` with the configured
separators, fuel 7 and fuel 20 agree, and dropping past the selected
separator `". "` strictly shrinks the separator list. -/
theorem c10_witness :
    recursiveSplitF 7 200 pySeparators ("a. b").data =
      recursiveSplitF 20 200 pySeparators ("a. b").data ∧
    (pySeparators.drop (idxOfSep ['.', ' '] pySeparators + 1)).length <
      pySeparators.length :=
  ⟨c10_recursive_split_terminates.1 7 20 200 pySeparators ("a. b").data
      (by decide) (by decide) (by decide),
   c10_recursive_split_terminates.2 pySeparators ['.', ' '] (by decide)⟩

/-- Claim C3: for a non-blank chunk whose key is absent from the cache,
whenever the retry loop ends with `last_error` set (any non-retryable
non-200 outcome, a non-200 `responseStatus`, an empty translation, or an
exhausted retry budget), `_translate_chunk` returns `success=True`, the
original text as `translated_text`, error
`"API unavailable, using original text: <reason>"`, and stores that same
fallback result in the cache under the key. -/
theorem c3_fallback_uses_original_and_caches
    (oracle : String → String → Nat → ApiResponse) (cache : Cache)
    (text lang reason : String) (n : Nat)
    (hb : isBlankL text.data = false)
    (hcf : cacheFind (text, pyLower lang) cache = none)
    (hra : runAttempts (oracle text (pyLower lang)) 0 MAX_RETRIES =
      (.fallback reason, n)) :
    (translate_chunk oracle cache text lang).1 =
      ⟨true, text, some ("API unavailable, using original text: " ++ reason)⟩ ∧
    cacheFind (text, pyLower lang) (translate_chunk oracle cache text lang).2.1 =
      some ⟨true, text,
        some ("API unavailable, using original text: " ++ reason)⟩ := by
  rw [translate_chunk_fallback oracle hb hcf hra]
  exact ⟨rfl, cacheFind_cons_self _ _ _⟩

/-- Witness for C3: a remote endpoint that answers HTTP 429 on every
attempt exhausts the retry budget of 2; `_translate_chunk` on `"hola"` from
`"ES"` returns the rate-limit fallback carrying the original text and
caches it under `("hola", "es")`. -/
theorem c3_witness :
    (translate_chunk oracle429 [] "hola" "ES").1 =
      ⟨true, "hola", some ("API unavailable, using original text: " ++
        "Translation service rate limited (too many requests)")⟩ ∧
    cacheFind ("hola", "es") (translate_chunk oracle429 [] "hola" "ES").2.1 =
      some ⟨true, "hola", some ("API unavailable, using original text: " ++
        "Translation service rate limited (too many requests)")⟩ :=
  c3_fallback_uses_original_and_caches oracle429 [] "hola" "ES"
    "Translation service rate limited (too many requests)" 2
    (by decide) (by decide) (by decide)

/-- Claim C5: if `TranslateChunk(t, lang)` completes without an unexpected
internal exception (`success=True`, which covers remote successes, cache
hits, blank input and graceful fallbacks), calling it again with identical
arguments returns the identical result, leaves the cache unchanged, and
issues no second remote request (0 HTTP calls). -/
theorem c5_translate_chunk_idempotent
    (oracle : String → String → Nat → ApiResponse) (c0 : Cache)
    (t lang : String)
    (h : (translate_chunk oracle c0 t lang).1.success = true) :
    translate_chunk oracle (translate_chunk oracle c0 t lang).2.1 t lang =
      ((translate_chunk oracle c0 t lang).1,
       (translate_chunk oracle c0 t lang).2.1, 0) := by
  by_cases hb : isBlankL t.data = true
  · rw [translate_chunk_blank oracle c0 lang hb]
    dsimp only
    exact translate_chunk_blank oracle c0 lang hb
  · replace hb : isBlankL t.data = false := by simpa using hb
    cases hcf : cacheFind (t, pyLower lang) c0 with
    | some r =>
      rw [translate_chunk_hit oracle hb hcf]
      dsimp only
      exact translate_chunk_hit oracle hb hcf
    | none =>
      rcases hra : runAttempts (oracle t (pyLower lang)) 0 MAX_RETRIES with ⟨o, n⟩
      cases o with
      | ok tr =>
        rw [translate_chunk_ok oracle hb hcf hra]
        dsimp only
        exact translate_chunk_hit oracle hb (cacheFind_cons_self _ _ _)
      | fallback reason =>
        rw [translate_chunk_fallback oracle hb hcf hra]
        dsimp only
        exact translate_chunk_hit oracle hb (cacheFind_cons_self _ _ _)
      | raised m =>
        rw [translate_chunk_raised oracle hb hcf hra] at h
        simp at h

/-- Witness for C5: after a first call that gracefully falls back under
permanent rate limiting, the second identical call returns the same result
from the cache with zero remote requests. -/
theorem c5_witness :
    translate_chunk oracle429 (translate_chunk oracle429 [] "hola" "es").2.1
        "hola" "es" =
      ((translate_chunk oracle429 [] "hola" "es").1,
       (translate_chunk oracle429 [] "hola" "es").2.1, 0) :=
  c5_translate_chunk_idempotent oracle429 [] "hola" "es" (by decide)

/-- Claim C2 (counterexample): with a remote endpoint whose response body
is unparseable (an unexpected internal exception inside the chunk's
translation), the single chunk of `"ab"` hard-fails and
`translate_to_english` returns that failure — but its `translated_text` is
the empty string, not the original extracted text `"ab"` as the claim
states. -/
theorem c2_counterexample :
    (translate_to_english oracleBoom [] "ab" "fr").1 =
      ⟨false, "", some ("Translation failed: " ++ "boom")⟩ ∧
    (translate_to_english oracleBoom [] "ab" "fr").1.translated_text ≠ "ab" :=
  ⟨by decide, by decide⟩

/-- Claim C2 as amended: for a non-blank, non-English document (with a
well-formed cache, as in the real process), if the chunks before `ch` all
translate with `success=True` and `ch` hard-fails, then
`translate_to_english` aborts at `ch` in order and returns exactly that
chunk's failure result — `success=False`, the chunk's
`"Translation failed: …"` error surfaced, and an empty `translated_text`
(the caller retains the original text; no partially translated document is
emitted). -/
theorem c2_hard_fail_aborts_with_empty_text
    (oracle : String → String → Nat → ApiResponse) (c0 : Cache)
    (text lang : String) (pre : List String) (ch : String)
    (post : List String)
    (hwf : cacheWF c0 = true)
    (hb : isBlankL text.data = false)
    (hen : pyLower lang ≠ "en")
    (hchunks : smart_chunk_text text = pre ++ ch :: post)
    (hok : prefixOkB oracle (pyLower lang) pre c0 = true)
    (hfail : (translate_chunk oracle
        (cacheAfterChunks oracle (pyLower lang) pre c0) ch
        (pyLower lang)).1.success = false) :
    translate_to_english oracle c0 text lang =
      ((translate_chunk oracle (cacheAfterChunks oracle (pyLower lang) pre c0)
          ch (pyLower lang)).1,
       (translate_chunk oracle (cacheAfterChunks oracle (pyLower lang) pre c0)
          ch (pyLower lang)).2.1) ∧
    (translate_chunk oracle (cacheAfterChunks oracle (pyLower lang) pre c0)
        ch (pyLower lang)).1.translated_text = "" ∧
    ∃ m, (translate_chunk oracle
        (cacheAfterChunks oracle (pyLower lang) pre c0) ch
        (pyLower lang)).1.error = some ("Translation failed: " ++ m) := by
  have hwf2 := cacheWF_cacheAfterChunks oracle (pyLower lang) pre c0 hwf
  have hshape := translate_chunk_fail_shape oracle ch (pyLower lang) hwf2 hfail
  refine ⟨?_, hshape.1, hshape.2⟩
  unfold translate_to_english
  rw [if_neg (by simp [hb]), if_neg hen, hchunks]
  exact translateLoop_fail oracle (pyLower lang) pre c0 [] ch post hok hfail

/-- Witness for C2 (amended): concrete single-chunk document `"ab"` in
French with an unparseable remote response. -/
theorem c2_witness :
    translate_to_english oracleBoom [] "ab" "fr" =
      ((translate_chunk oracleBoom
          (cacheAfterChunks oracleBoom (pyLower "fr") [] []) "ab"
          (pyLower "fr")).1,
       (translate_chunk oracleBoom
          (cacheAfterChunks oracleBoom (pyLower "fr") [] []) "ab"
          (pyLower "fr")).2.1) ∧
    (translate_chunk oracleBoom (cacheAfterChunks oracleBoom (pyLower "fr") [] [])
        "ab" (pyLower "fr")).1.translated_text = "" ∧
    ∃ m, (translate_chunk oracleBoom
        (cacheAfterChunks oracleBoom (pyLower "fr") [] []) "ab"
        (pyLower "fr")).1.error = some ("Translation failed: " ++ m) :=
  c2_hard_fail_aborts_with_empty_text oracleBoom [] "ab" "fr" [] "ab" []
    (by decide) (by decide) (by decide) (by decide) (by decide) (by decide)

/-- Claim C6 (counterexample): for the empty input text with source
language `"en"`, `translate_to_english` does not return success with the
original text — the blank-input check precedes the English check, so it
fails with `"Empty text provided"`. -/
theorem c6_counterexample :
    (translate_to_english oracleOkay [] "" "en").1 =
      ⟨false, "", some "Empty text provided"⟩ ∧
    (translate_to_english oracleOkay [] "" "en").1.success ≠ true :=
  ⟨by decide, by decide⟩

/-- Claim C6 as amended: the OCR pipeline performs no translation when the
detected Tesseract code is `"eng"` (its English code): `translated=False`
and the extracted text is returned character for character; and for every
NON-BLANK input text, `translate_to_english` with source language `"en"`
in any letter case returns success with the original text unchanged
(blank input instead fails with `"Empty text provided"`). -/
theorem c6_english_passthrough :
    (∀ (extracted : String) (translator : String → String),
        (process_image_multilingual "eng" extracted translator).translated
            = false ∧
        (process_image_multilingual "eng" extracted translator).extracted_text
            = extracted) ∧
    (∀ (oracle : String → String → Nat → ApiResponse) (c : Cache)
        (text lang : String),
        isBlankL text.data = false → pyLower lang = "en" →
        translate_to_english oracle c text lang = (⟨true, text, none⟩, c)) := by
  constructor
  · intro extracted translator
    constructor <;> rfl
  · intro oracle c text lang hb hl
    exact translate_to_english_en oracle c hb hl

/-- Witness for C6 (amended): the pipeline on detected `"eng"`, and
`translate_to_english` on `"Hello"` with source `"EN"`. -/
theorem c6_witness :
    ((process_image_multilingual "eng" "hello world" id).translated = false ∧
     (process_image_multilingual "eng" "hello world" id).extracted_text
        = "hello world") ∧
    translate_to_english oracleOkay [] "Hello" "EN" =
      (⟨true, "Hello", none⟩, []) :=
  ⟨c6_english_passthrough.1 "hello world" id,
   c6_english_passthrough.2 oracleOkay [] "Hello" "EN" (by decide) (by decide)⟩

/-- Claim C7 (counterexample): the blank-input failure of `detect_language`
carries the error string `"Empty text provided"` (capital E), not
`"empty text provided"` as the claim states. -/
theorem c7_counterexample :
    (detect_language oracleNoLangs "").1.error = some "Empty text provided" ∧
    (some "Empty text provided" : Option String) ≠ some "empty text provided" :=
  ⟨by decide, by decide⟩

/-- Claim C7 as amended: for blank or whitespace-only input,
`detect_language` returns `success=False`, confidence exactly 0, absent
language code and name, error `"Empty text provided"` (capitalized as in
the code), and does not invoke the underlying `langdetect` algorithm
(second component `false`); moreover every failure result has absent
code/name and confidence 0. -/
theorem c7_blank_detection_failure :
    (∀ (oracle : String → DetectOutcome) (text : String),
        isBlankL text.data = true →
        detect_language oracle text =
          (⟨false, none, none, 0, some "Empty text provided"⟩, false)) ∧
    (∀ (oracle : String → DetectOutcome) (text : String),
        (detect_language oracle text).1.success = false →
        (detect_language oracle text).1.language_code = none ∧
        (detect_language oracle text).1.language_name = none ∧
        (detect_language oracle text).1.confidence = 0) := by
  constructor
  · intro oracle text hb
    unfold detect_language
    rw [if_pos hb]
  · intro oracle text hf
    unfold detect_language at hf ⊢
    by_cases hb : isBlankL text.data = true
    · rw [if_pos hb]
      exact ⟨rfl, rfl, rfl⟩
    · rw [if_neg hb] at hf ⊢
      cases ho : oracle text with
      | langs ranked =>
        cases ranked with
        | nil => exact ⟨rfl, rfl, rfl⟩
        | cons hd tl =>
          obtain ⟨code, prob⟩ := hd
          rw [ho] at hf
          exact Bool.noConfusion hf
      | langDetectExc m => exact ⟨rfl, rfl, rfl⟩
      | otherExc m => exact ⟨rfl, rfl, rfl⟩

/-- Witness for C7: whitespace-only input yields the exact blank failure
without invoking detection; the no-candidates failure has absent fields
and zero confidence. -/
theorem c7_witness :
    detect_language oracleFrench "   " =
      (⟨false, none, none, 0, some "Empty text provided"⟩, false) ∧
    ((detect_language oracleNoLangs "x").1.language_code = none ∧
     (detect_language oracleNoLangs "x").1.language_name = none ∧
     (detect_language oracleNoLangs "x").1.confidence = 0) :=
  ⟨c7_blank_detection_failure.1 oracleFrench "   " (by decide),
   c7_blank_detection_failure.2 oracleNoLangs "x" (by decide)⟩

/-- Claim C8: `detect_language_from_pages` on a list with at least one
non-blank segment equals `detect_language` applied to the single-space
join of the non-blank segments (same underlying oracle); when every
segment is blank (or the list is empty), it returns the
`"No text provided"` failure without invoking detection. -/
theorem c8_from_pages_delegates :
    (∀ (oracle : String → DetectOutcome) (texts : List String),
        (∀ t ∈ texts, isBlankL t.data = true) →
        detect_language_from_pages oracle texts =
          (⟨false, none, none, 0, some "No text provided"⟩, false)) ∧
    (∀ (oracle : String → DetectOutcome) (texts : List String) (t : String),
        t ∈ texts → isBlankL t.data = false →
        detect_language_from_pages oracle texts =
          detect_language oracle (joinNonBlank texts)) := by
  constructor
  · intro oracle texts hall
    unfold detect_language_from_pages
    have hA : texts.all (fun t => isBlankL t.data) = true :=
      List.all_eq_true.mpr hall
    rw [if_pos (by simp [hA])]
  · intro oracle texts t ht hnb
    unfold detect_language_from_pages
    have h1 : texts.isEmpty = false := by
      cases texts with
      | nil => simp at ht
      | cons a rest => rfl
    have h2 : texts.all (fun x => isBlankL x.data) = false := by
      rcases hall : texts.all (fun x => isBlankL x.data) with _ | _
      · rfl
      · have := List.all_eq_true.mp hall t ht
        rw [hnb] at this
        cases this
    rw [if_neg (by simp [h1, h2])]
    have hjoin : isBlankL (joinNonBlank texts).data = false := by
      apply joinSpStr_not_blank
      · intro x hx
        have := (List.mem_filter.mp hx).2
        simpa using this
      · exact List.ne_nil_of_mem (List.mem_filter.mpr ⟨ht, by simp [hnb]⟩)
    rw [if_neg (by simp [hjoin])]

/-- Witness for C8: all-blank pages give the `"No text provided"` failure;
pages with non-blank content delegate to detection on the joined text. -/
theorem c8_witness :
    detect_language_from_pages oracleFrench ["", "  "] =
      (⟨false, none, none, 0, some "No text provided"⟩, false) ∧
    detect_language_from_pages oracleFrench ["", "bonjour", "monde"] =
      detect_language oracleFrench (joinNonBlank ["", "bonjour", "monde"]) :=
  ⟨c8_from_pages_delegates.1 oracleFrench ["", "  "] (by decide),
   c8_from_pages_delegates.2 oracleFrench ["", "bonjour", "monde"] "bonjour"
      (by decide) (by decide)⟩

/-- Claim C9: `translate_pages` reports `success=True` with no error
regardless of per-page outcomes; it returns one entry per input page; each
entry is the page's translation if `translate_to_english` (run from the
threaded cache state) succeeded and the empty string otherwise — in
particular every blank page, which always fails with
`"Empty text provided"`, contributes the empty string, silently dropping
that page's content while the overall result still reports success. -/
theorem c9_translate_pages_always_success
    (oracle : String → String → Nat → ApiResponse) (c0 : Cache)
    (texts : List String) (lang : String) :
    (translate_pages oracle c0 texts lang).1.success = true ∧
    (translate_pages oracle c0 texts lang).1.error = none ∧
    (translate_pages oracle c0 texts lang).1.translated_texts.length
        = texts.length ∧
    (∀ i : Nat, i < texts.length →
      (translate_pages oracle c0 texts lang).1.translated_texts.getD i "" =
        (if (translate_to_english oracle
              (cacheAfterPages oracle lang (texts.take i) c0)
              (texts.getD i "") lang).1.success
         then (translate_to_english oracle
              (cacheAfterPages oracle lang (texts.take i) c0)
              (texts.getD i "") lang).1.translated_text
         else "")) ∧
    (∀ i : Nat, i < texts.length → isBlankL (texts.getD i "").data = true →
      (translate_pages oracle c0 texts lang).1.translated_texts.getD i ""
        = "") := by
  refine ⟨rfl, rfl, pagesLoop_length oracle lang texts c0,
    fun i hi => pagesLoop_getD oracle lang texts c0 i hi, ?_⟩
  intro i hi hblank
  have h := pagesLoop_getD oracle lang texts c0 i hi
  rw [translate_to_english_blank oracle
    (cacheAfterPages oracle lang (texts.take i) c0) lang hblank] at h
  show (pagesLoop oracle lang texts c0).1.getD i "" = ""
  simpa using h

/-- Witness for C9: two pages, the first blank; the overall result is
`success=True` and the blank page contributes the empty string. -/
theorem c9_witness :
    (translate_pages oracle429 [] ["", "hola"] "es").1.success = true ∧
    (translate_pages oracle429 [] ["", "hola"] "es").1.translated_texts.getD
        0 "" = "" :=
  ⟨(c9_translate_pages_always_success oracle429 [] ["", "hola"] "es").1,
   (c9_translate_pages_always_success oracle429 [] ["", "hola"]
      "es").2.2.2.2 0 (by decide) (by decide)⟩

end PharmaOCR
